import Mathlib

/-!
# Verification of the `TickerSelect` widget (`src/js/ticker-select.js`)

A shallow embedding of the searchable ticker dropdown widget: JavaScript
strings are lists of code points, the widget's mutable fields form a
`Widget` structure, DOM/network events become a step function on that
structure, and the asynchronous fetch is passed its network outcome as an
explicit oracle argument.
-/

set_option maxHeartbeats 1000000

/-! ## String model -/

/-- A JavaScript string, as its list of code points. -/
abbrev Str := List Nat

/-- Code points that `String.prototype.trim` removes (ASCII fragment). -/
def isWsCp (c : Nat) : Bool :=
  decide (c = 32 ∨ c = 9 ∨ c = 10 ∨ c = 11 ∨ c = 12 ∨ c = 13)

/-- `String.prototype.toUpperCase` on one code point (ASCII fragment). -/
def upCp (c : Nat) : Nat := if 97 ≤ c ∧ c ≤ 122 then c - 32 else c

/-- `s.toUpperCase()`. -/
def upL (s : Str) : Str := s.map upCp

/-- `s.trim()`: whitespace removed from both ends. -/
def trimL (s : Str) : Str := (s.dropWhile isWsCp).rdropWhile isWsCp

/-- The query normalization the widget applies before caching/fetching:
`input.value.trim().toUpperCase()`. -/
def normalizeQ (s : Str) : Str := upL (trimL s)

/-- Embed a Lean string literal as a JS string (for concrete examples). -/
def jstr (s : String) : Str := s.data.map Char.toNat

/-- `text.startsWith(pat)`. -/
def startsWithJ (text pat : Str) : Bool :=
  match text, pat with
  | _, [] => true
  | [], _ :: _ => false
  | a :: as, b :: bs => a == b && startsWithJ as bs

/-- `text.includes(pat)`. -/
def includesJ (text pat : Str) : Bool :=
  match text with
  | [] => pat.isEmpty
  | a :: rest => startsWithJ (a :: rest) pat || includesJ rest pat

/-! ## Data model -/

/-- One ticker record as delivered by the edge function / static table
(`{ ticker, name, sector, last_price, manual }`). -/
structure TickerRecord where
  ticker : Str
  name : Str
  sector : Option Str
  lastPrice : Option Int
  manual : Bool
deriving DecidableEq, Repr

/-- `this.cache`: a plain JS object used as a map from query strings to
result lists, kept in key-insertion order. -/
abbrev Cache := List (Str × List TickerRecord)

/-- `this.cache[k]` (`undefined` represented as `none`). -/
def cacheGet (c : Cache) (k : Str) : Option (List TickerRecord) :=
  (c.find? (fun p => p.1 == k)).map Prod.snd

/-- `this.cache[k] = v` on a JS object: overwrite in place, or append a new
key in insertion order. -/
def cacheSet (c : Cache) (k : Str) (v : List TickerRecord) : Cache :=
  match c with
  | [] => [(k, v)]
  | (k', v') :: rest =>
      if k' == k then (k, v) :: rest else (k', v') :: cacheSet rest k v

/-- The execution environment: `IDX_TICKERS` is the static fallback table,
`none` when `typeof IDX_TICKERS === 'undefined'`. -/
structure Env where
  fallbackTable : Option (List TickerRecord)

/-- Outcome of one `fetch` of the edge function: `success tks` is a 2xx
response whose parsed JSON has `tickers` field `tks` (`none` when the field
is missing), `failure` is any network or parse error. -/
inductive NetResult where
  | success (tks : Option (List TickerRecord))
  | failure
deriving DecidableEq, Repr

/-- The widget's mutable state, together with the relevant pieces of DOM it
owns: the bound input's value, the autofill fields (`none` when not
configured or not present in the document), the badge, the number of
`.ts-item` rows currently in the dropdown's DOM, the query captured by the
rendered manual-entry row, and the log of `onChange` invocations. -/
structure Widget where
  selected : Option TickerRecord
  dropdownVisible : Bool
  highlightedIndex : Int
  cache : Cache
  loading : Bool
  currentResults : List TickerRecord
  renderedCount : Nat
  renderedQuery : Str
  inputValue : Str
  badgeVisible : Bool
  badgeText : Str
  nameField : Option Str
  sectorField : Option Str
  nameFieldReadOnly : Bool
  hasOnChange : Bool
  changeEvents : List TickerRecord
deriving DecidableEq, Repr

/-! ## Operations (translated from `ticker-select.js`) -/

/-- The fallback filter in `_fetchTickers`'s `catch` branch:
`q ? IDX_TICKERS.filter(t => t.ticker.startsWith(q) ||
t.name.toUpperCase().includes(q)).slice(0, 30) : IDX_TICKERS.slice(0, 50)`
with `q = query.toUpperCase()`. -/
def fallbackFilter (table : List TickerRecord) (query : Str) : List TickerRecord :=
  let q := upL query
  if q.isEmpty then table.take 50
  else (table.filter
         (fun t => startsWithJ t.ticker q || includesJ (upL t.name) q)).take 30

/-- `_fetchTickers(query)` with the network outcome passed explicitly.
Returns the updated widget, the result list the promise resolves with, and
whether the network/fallback was consulted (`false` = served from cache).
The `loading`/spinner toggles collapse to their final (`finally`) value. -/
def fetchTickers (env : Env) (w : Widget) (query : Str) (net : NetResult) :
    Widget × List TickerRecord × Bool :=
  match cacheGet w.cache query with
  | some cached => (w, cached, false)
  | none =>
    match net with
    | .success tks =>
        let tickers := tks.getD []
        ({ w with cache := cacheSet w.cache query tickers, loading := false },
         tickers, true)
    | .failure =>
        match env.fallbackTable with
        | some table =>
            let results := fallbackFilter table query
            ({ w with cache := cacheSet w.cache query results, loading := false },
             results, true)
        | none => ({ w with loading := false }, [], true)

/-- `_render(results, q)`: replaces the dropdown rows, stores
`_currentResults`, and resets `highlightedIndex` to `-1`. -/
def renderResults (w : Widget) (results : List TickerRecord) (q : Str) : Widget :=
  { w with currentResults := results, highlightedIndex := -1,
           renderedCount := results.length, renderedQuery := q }

/-- `_select(item)`. -/
def selectItem (w : Widget) (item : TickerRecord) : Widget :=
  { w with
    selected := some item
    inputValue := item.ticker
    nameField := w.nameField.map (fun _ => item.name)
    sectorField := w.sectorField.map (fun _ => item.sector.getD [])
    badgeText := item.name
    badgeVisible := true
    dropdownVisible := false
    changeEvents :=
      if w.hasOnChange then w.changeEvents ++ [item] else w.changeEvents }

/-- `_selectManual(ticker)`. -/
def selectManual (w : Widget) (tick : Str) : Widget :=
  let mrec : TickerRecord :=
    { ticker := upL tick, name := [], sector := some [], lastPrice := none,
      manual := true }
  { w with
    selected := some mrec
    inputValue := upL tick
    nameField := w.nameField.map (fun _ => [])
    nameFieldReadOnly := if w.nameField.isSome then false else w.nameFieldReadOnly
    sectorField := w.sectorField.map (fun _ => [])
    badgeVisible := false
    dropdownVisible := false
    changeEvents :=
      if w.hasOnChange then w.changeEvents ++ [mrec] else w.changeEvents }

/-- `_onKeydown`, ArrowDown branch:
`highlightedIndex = Math.min(highlightedIndex + 1, items.length - 1)` where
`items` are the `.ts-item` rows currently in the dropdown's DOM. -/
def arrowDown (w : Widget) : Widget :=
  { w with
    highlightedIndex := min (w.highlightedIndex + 1) ((w.renderedCount : Int) - 1) }

/-- `_onKeydown`, ArrowUp branch:
`highlightedIndex = Math.max(highlightedIndex - 1, 0)`. -/
def arrowUp (w : Widget) : Widget :=
  { w with highlightedIndex := max (w.highlightedIndex - 1) 0 }

/-- `_onKeydown`, Enter branch: commits
`_currentResults[highlightedIndex]` when it exists; no check of
`dropdownVisible`. -/
def enterKey (w : Widget) : Widget :=
  if 0 ≤ w.highlightedIndex then
    match w.currentResults.get? w.highlightedIndex.toNat with
    | some item => selectItem w item
    | none => w
  else w

/-- `_hide()`. -/
def hideDropdown (w : Widget) : Widget := { w with dropdownVisible := false }

/-- `_showLoading()`: the dropdown's DOM is replaced by a spinner row, so no
`.ts-item` rows and no manual-entry row remain. -/
def showLoading (w : Widget) : Widget :=
  { w with renderedCount := 0, renderedQuery := [] }

/-- `_onInput()` with the fetch outcome supplied: normalize the input,
show the loading row, open the dropdown, fetch, render. -/
def onInput (env : Env) (w : Widget) (net : NetResult) : Widget :=
  let q := normalizeQ w.inputValue
  let wl := showLoading w
  let w1 := { wl with dropdownVisible := true }
  let r := fetchTickers env w1 q net
  renderResults r.1 r.2.1 q

/-- The `input` event listener: hide the badge, then (after the debounce)
`_onInput`. -/
def inputEvent (env : Env) (w : Widget) (text : Str) (net : NetResult) : Widget :=
  onInput env { w with inputValue := text, badgeVisible := false } net

/-- The `focus` event listener: render straight from cache when the
normalized query is cached, else `_onInput`. -/
def focusEvent (env : Env) (w : Widget) (net : NetResult) : Widget :=
  let q := normalizeQ w.inputValue
  match cacheGet w.cache q with
  | some cached =>
      let wr := renderResults w cached q
      { wr with dropdownVisible := true }
  | none => onInput env w net

/-- `mousedown` on the `i`-th rendered `.ts-item` row (possible only while
the dropdown is displayed and the row exists). -/
def clickItem (w : Widget) (i : Nat) : Widget :=
  if w.dropdownVisible ∧ i < w.renderedCount then
    match w.currentResults.get? i with
    | some item => selectItem w item
    | none => w
  else w

/-- `mousedown` on the manual-entry row (rendered only for a non-empty
query, clickable only while the dropdown is displayed). -/
def clickManual (w : Widget) : Widget :=
  if w.dropdownVisible ∧ ¬w.renderedQuery.isEmpty then
    selectManual w w.renderedQuery
  else w

/-- `clear()`. -/
def clearW (w : Widget) : Widget :=
  { w with
    selected := none
    inputValue := []
    badgeVisible := false
    dropdownVisible := false
    nameField := w.nameField.map (fun _ => [])
    nameFieldReadOnly := if w.nameField.isSome then true else w.nameFieldReadOnly }

/-- `setValue(ticker)` with the (possible) fetch outcome supplied. -/
def setValueOp (env : Env) (w : Widget) (tick : Str) (net : NetResult) : Widget :=
  let allCached := (w.cache.map Prod.snd).flatten
  match allCached.find? (fun t => t.ticker == tick) with
  | some found => selectItem w found
  | none =>
      let w1 := { w with inputValue := tick }
      let r := fetchTickers env w1 tick net
      match r.2.1.find? (fun t => t.ticker == tick) with
      | some m => selectItem r.1 m
      | none => r.1

/-! ## Events and reachability -/

/-- One observable event, with each fetch's network outcome attached. -/
inductive Ev where
  | focus (net : NetResult)
  | inputEv (text : Str) (net : NetResult)
  | arrowDown
  | arrowUp
  | enter
  | escape
  | outsideClick
  | clickItem (i : Nat)
  | clickManual
  | clearOp
  | setValueOp (tick : Str) (net : NetResult)
deriving DecidableEq, Repr

def step (env : Env) (w : Widget) : Ev → Widget
  | .focus net => focusEvent env w net
  | .inputEv text net => inputEvent env w text net
  | .arrowDown => arrowDown w
  | .arrowUp => arrowUp w
  | .enter => enterKey w
  | .escape => hideDropdown w
  | .outsideClick => hideDropdown w
  | .clickItem i => clickItem w i
  | .clickManual => clickManual w
  | .clearOp => clearW w
  | .setValueOp t net => setValueOp env w t net

def run (env : Env) (w : Widget) (evs : List Ev) : Widget :=
  evs.foldl (step env) w

/-- The field initialization at the top of the constructor. -/
def initWidget (hasName hasSector hasCb : Bool) (initText : Str) : Widget :=
  { selected := none, dropdownVisible := false, highlightedIndex := -1,
    cache := [], loading := false, currentResults := [], renderedCount := 0,
    renderedQuery := [], inputValue := initText, badgeVisible := false,
    badgeText := [],
    nameField := if hasName then some [] else none,
    sectorField := if hasSector then some [] else none,
    nameFieldReadOnly := true, hasOnChange := hasCb, changeEvents := [] }

/-- The constructor: a no-op when the target input does not exist,
otherwise builds the widget and pre-warms the empty-query cache entry
(`this._fetchTickers('')`). -/
def constructW (env : Env) (hasName hasSector hasCb : Bool)
    (inputExists : Bool) (initText : Str) (net : NetResult) : Option Widget :=
  if inputExists then
    some (fetchTickers env (initWidget hasName hasSector hasCb initText) [] net).1
  else none

/-- Widget states reachable from a successful construction by a sequence of
events. -/
def ReachableW (env : Env) (w : Widget) : Prop :=
  ∃ hasName hasSector hasCb initText net w0 evs,
    constructW env hasName hasSector hasCb true initText net = some w0 ∧
    run env w0 evs = w

/-! ## Specification-side definitions and invariants -/

/-- The fallback filter as the spec words it (for refinement comparison):
case-insensitive on BOTH sides of the ticker comparison — "prefix match on
ticker symbol OR substring match on company name (case-insensitive)". -/
def fallbackFilterSpec (table : List TickerRecord) (query : Str) : List TickerRecord :=
  if query.isEmpty then table.take 50
  else (table.filter
         (fun t => startsWithJ (upL t.ticker) (upL query)
                   || includesJ (upL t.name) (upL query))).take 30

/-- The highlight invariant that actually holds: the rendered row count
matches `_currentResults`, and `highlightedIndex` is `-1`, `0`, or a valid
index into `_currentResults`. -/
def StateInv (w : Widget) : Prop :=
  w.renderedCount = w.currentResults.length ∧
  -1 ≤ w.highlightedIndex ∧
  (w.highlightedIndex = 0 ∨ w.highlightedIndex < (w.currentResults.length : Int))

/-- All cache keys are normalized queries. -/
def CacheNorm (w : Widget) : Prop :=
  ∀ k ∈ w.cache.map Prod.fst, normalizeQ k = k

/-- Invariant claimed by the spec: the input's displayed text equals
`selected.ticker` whenever `selected` is non-null. -/
def SelSync (w : Widget) : Prop :=
  ∀ r, w.selected = some r → w.inputValue = r.ticker

/-! ## Concrete states for counterexamples and witnesses -/

/-- Environment with no static fallback table. -/
def envNoFb : Env := ⟨none⟩

/-- A successful response with an empty `tickers` list. -/
def netEmpty : NetResult := .success (some [])

/-- A freshly constructed widget (no autofill fields, no callback), whose
pre-warm fetch succeeded with an empty list. -/
def w0empty : Widget :=
  (fetchTickers envNoFb (initWidget false false false []) [] netEmpty).1

/-- `w0empty` after a `focus`: the cached empty list for `""` is rendered,
so the dropdown shows zero `.ts-item` rows and `highlightedIndex = -1`. -/
def wEmptyRendered : Widget := run envNoFb w0empty [Ev.focus netEmpty]

/-- The record used in concrete scenarios. -/
def rBB : TickerRecord :=
  { ticker := jstr "BBRI", name := jstr "Bank Rakyat Indonesia",
    sector := some (jstr "Banking"), lastPrice := some 4500, manual := false }

/-- A freshly constructed widget whose pre-warm returned `[rBB]`. -/
def w0bb : Widget :=
  (fetchTickers envNoFb (initWidget false false false []) []
    (.success (some [rBB]))).1

/-- `w0bb` after `setValue('BBRI')` (commits `rBB` from the cache) and then
`setValue('ZZZZ')` (no exact match anywhere). -/
def wAfterSet : Widget :=
  run envNoFb w0bb
    [Ev.setValueOp (jstr "BBRI") netEmpty, Ev.setValueOp (jstr "ZZZZ") netEmpty]

/-- `w0empty` after `setValue('bbri')`: the raw, non-normalized argument is
used as a cache key. -/
def wRawKey : Widget := run envNoFb w0empty [Ev.setValueOp (jstr "bbri") netEmpty]

/-- A fallback-table record whose ticker symbol is stored in lower case. -/
def tLow : TickerRecord :=
  { ticker := jstr "bbri", name := jstr "x", sector := none,
    lastPrice := none, manual := false }

/-- A fresh widget whose pre-warm fetch failed with no fallback table:
nothing is cached for the empty query. -/
def wFailNoFb : Widget :=
  (fetchTickers envNoFb (initWidget false false false []) [] .failure).1

/-- A generic mid-interaction state used to discharge witnesses: two
results rendered, first row highlighted, both autofill fields configured,
change callback configured, dropdown closed. -/
def wMid : Widget :=
  { selected := none, dropdownVisible := false, highlightedIndex := 0,
    cache := [], loading := false,
    currentResults := [rBB, tLow], renderedCount := 2,
    renderedQuery := jstr "B", inputValue := jstr "b",
    badgeVisible := false, badgeText := [],
    nameField := some [], sectorField := some [],
    nameFieldReadOnly := true, hasOnChange := true, changeEvents := [] }

/-! ## Helper lemmas -/

/-! ### Lemmas about the string model -/

theorem upCp_idem (c : Nat) : upCp (upCp c) = upCp c := by
  simp only [upCp]
  by_cases h : 97 ≤ c ∧ c ≤ 122
  · rw [if_pos h, if_neg (by omega : ¬(97 ≤ c - 32 ∧ c - 32 ≤ 122))]
  · rw [if_neg h, if_neg h]

theorem isWsCp_upCp (c : Nat) : isWsCp (upCp c) = isWsCp c := by
  by_cases h : 97 ≤ c ∧ c ≤ 122
  · simp only [isWsCp, upCp, if_pos h, decide_eq_decide]
    omega
  · simp only [upCp, if_neg h]

theorem upL_upL (s : Str) : upL (upL s) = upL s := by
  induction s with
  | nil => rfl
  | cons a t ih =>
      simp only [upL, List.map_cons] at ih ⊢
      rw [upCp_idem, ih]

theorem dropWhile_upL (s : Str) :
    (upL s).dropWhile isWsCp = upL (s.dropWhile isWsCp) := by
  induction s with
  | nil => rfl
  | cons a t ih =>
      simp only [upL, List.map_cons, List.dropWhile_cons, isWsCp_upCp]
      by_cases h : isWsCp a
      · simpa [h, upL] using ih
      · simp [h, upL]

theorem rdropWhile_upL (s : Str) :
    (upL s).rdropWhile isWsCp = upL (s.rdropWhile isWsCp) := by
  have h1 : (upL s).reverse = upL s.reverse := by
    simp [upL, List.map_reverse]
  rw [List.rdropWhile, List.rdropWhile, h1, dropWhile_upL]
  simp [upL, List.map_reverse]

theorem trimL_upL (s : Str) : trimL (upL s) = upL (trimL s) := by
  simp only [trimL, dropWhile_upL, rdropWhile_upL]

theorem dropWhile_rdropWhile_dropWhile (l : Str) :
    ((l.dropWhile isWsCp).rdropWhile isWsCp).dropWhile isWsCp
      = (l.dropWhile isWsCp).rdropWhile isWsCp := by
  obtain ⟨t, ht⟩ := List.rdropWhile_prefix isWsCp (l.dropWhile isWsCp)
  cases hx : (l.dropWhile isWsCp).rdropWhile isWsCp with
  | nil => rfl
  | cons a x' =>
    rw [hx] at ht
    have h1 := List.dropWhile_idempotent isWsCp l
    rw [← ht] at h1
    have hnpa : isWsCp a = false := by
      by_cases hpa : isWsCp a
      · exfalso
        simp only [List.cons_append, List.dropWhile_cons, hpa, if_true] at h1
        have hle : ((x' ++ t).dropWhile isWsCp).length ≤ (x' ++ t).length :=
          (List.dropWhile_suffix isWsCp).length_le
        have hlen := congrArg List.length h1
        simp only [List.length_cons, List.length_append] at hle hlen
        omega
      · simpa using hpa
    simp [List.dropWhile_cons, hnpa]

theorem trimL_trimL (s : Str) : trimL (trimL s) = trimL s := by
  simp only [trimL]
  rw [dropWhile_rdropWhile_dropWhile]
  exact List.rdropWhile_idempotent _ _

theorem normalizeQ_idem (s : Str) : normalizeQ (normalizeQ s) = normalizeQ s := by
  simp only [normalizeQ, trimL_upL, trimL_trimL, upL_upL]


theorem cacheGet_cacheSet_self (c : Cache) (k : Str) (v : List TickerRecord) :
    cacheGet (cacheSet c k v) k = some v := by
  induction c with
  | nil => simp [cacheGet, cacheSet, List.find?]
  | cons p rest ih =>
      obtain ⟨k', v'⟩ := p
      by_cases h : k' == k
      · simp [cacheSet, h, cacheGet, List.find?]
      · simp only [cacheSet, h, if_false, Bool.false_eq_true]
        simpa [cacheGet, List.find?_cons, h] using ih

theorem cacheSet_keys {c : Cache} {k : Str} {v : List TickerRecord} {k' : Str}
    (h : k' ∈ (cacheSet c k v).map Prod.fst) :
    k' = k ∨ k' ∈ c.map Prod.fst := by
  induction c with
  | nil => simpa [cacheSet] using h
  | cons p rest ih =>
      obtain ⟨k0, v0⟩ := p
      by_cases hk : k0 == k
      · simp only [cacheSet, hk, if_true, List.map_cons, List.mem_cons] at h
        rcases h with h | h
        · exact Or.inl h
        · exact Or.inr (List.mem_cons_of_mem _ h)
      · simp only [cacheSet, hk, Bool.false_eq_true, if_false, List.map_cons,
          List.mem_cons] at h
        rcases h with h | h
        · exact Or.inr (by simp [h])
        · rcases ih h with h2 | h2
          · exact Or.inl h2
          · exact Or.inr (List.mem_cons_of_mem _ h2)

/-- `_fetchTickers` touches only `cache` and `loading`. -/
theorem fetch_fields (env : Env) (w : Widget) (q : Str) (net : NetResult) :
    (fetchTickers env w q net).1.selected = w.selected ∧
    (fetchTickers env w q net).1.inputValue = w.inputValue ∧
    (fetchTickers env w q net).1.highlightedIndex = w.highlightedIndex ∧
    (fetchTickers env w q net).1.currentResults = w.currentResults ∧
    (fetchTickers env w q net).1.renderedCount = w.renderedCount ∧
    (fetchTickers env w q net).1.renderedQuery = w.renderedQuery ∧
    (fetchTickers env w q net).1.dropdownVisible = w.dropdownVisible ∧
    (fetchTickers env w q net).1.nameField = w.nameField ∧
    (fetchTickers env w q net).1.sectorField = w.sectorField ∧
    (fetchTickers env w q net).1.nameFieldReadOnly = w.nameFieldReadOnly ∧
    (fetchTickers env w q net).1.badgeVisible = w.badgeVisible ∧
    (fetchTickers env w q net).1.badgeText = w.badgeText ∧
    (fetchTickers env w q net).1.hasOnChange = w.hasOnChange ∧
    (fetchTickers env w q net).1.changeEvents = w.changeEvents := by
  unfold fetchTickers
  cases hc : cacheGet w.cache q with
  | some cached => simp
  | none =>
      cases net with
      | success tks => simp
      | failure =>
          cases hf : env.fallbackTable with
          | some table => simp
          | none => simp

/-- Cache keys after `_fetchTickers`: at most the queried key is added. -/
theorem fetch_cache_keys {env : Env} {w : Widget} {q : Str} {net : NetResult}
    {k : Str} (h : k ∈ (fetchTickers env w q net).1.cache.map Prod.fst) :
    k = q ∨ k ∈ w.cache.map Prod.fst := by
  unfold fetchTickers at h
  rcases hc : cacheGet w.cache q with _ | cached <;> rw [hc] at h
  · rcases net with tks | _
    · exact cacheSet_keys h
    · rcases hf : env.fallbackTable with _ | table <;> rw [hf] at h
      · exact Or.inr h
      · exact cacheSet_keys h
  · exact Or.inr h

/-- A cached query is answered from the cache, without another hit. -/
theorem fetch_cached {env : Env} {w : Widget} {q : Str} {net : NetResult}
    {v : List TickerRecord} (h : cacheGet w.cache q = some v) :
    fetchTickers env w q net = (w, v, false) := by
  unfold fetchTickers
  rw [h]

theorem stateInv_renderResults (w : Widget) (results : List TickerRecord)
    (q : Str) : StateInv (renderResults w results q) := by
  refine ⟨?_, ?_, Or.inr ?_⟩ <;> simp only [renderResults] <;> omega

theorem stateInv_selectItem {w : Widget} (h : StateInv w) (item : TickerRecord) :
    StateInv (selectItem w item) := by
  simpa only [StateInv, selectItem] using h

theorem stateInv_onInput {env : Env} (w : Widget) (net : NetResult) :
    StateInv (onInput env w net) :=
  stateInv_renderResults _ _ _

theorem stateInv_step (env : Env) {w : Widget} (h : StateInv w) (e : Ev) :
    StateInv (step env w e) := by
  obtain ⟨hcnt, hlo, hhi⟩ := h
  cases e with
  | focus net =>
      simp only [step, focusEvent]
      cases hc : cacheGet w.cache (normalizeQ w.inputValue) with
      | some cached =>
          have := stateInv_renderResults w cached (normalizeQ w.inputValue)
          simpa only [StateInv] using this
      | none => exact stateInv_onInput w net
  | inputEv text net => exact stateInv_onInput _ net
  | arrowDown =>
      refine ⟨hcnt, ?_, ?_⟩ <;> (simp only [step, arrowDown]; omega)
  | arrowUp =>
      refine ⟨hcnt, ?_, ?_⟩ <;> (simp only [step, arrowUp]; omega)
  | enter =>
      simp only [step, enterKey]
      split
      · cases hg : w.currentResults.get? w.highlightedIndex.toNat with
        | some item => exact stateInv_selectItem ⟨hcnt, hlo, hhi⟩ item
        | none => exact ⟨hcnt, hlo, hhi⟩
      · exact ⟨hcnt, hlo, hhi⟩
  | escape => exact ⟨hcnt, hlo, hhi⟩
  | outsideClick => exact ⟨hcnt, hlo, hhi⟩
  | clickItem i =>
      simp only [step, clickItem]
      split
      · cases hg : w.currentResults.get? i with
        | some item => exact stateInv_selectItem ⟨hcnt, hlo, hhi⟩ item
        | none => exact ⟨hcnt, hlo, hhi⟩
      · exact ⟨hcnt, hlo, hhi⟩
  | clickManual =>
      simp only [step, clickManual]
      split
      · exact ⟨hcnt, hlo, hhi⟩
      · exact ⟨hcnt, hlo, hhi⟩
  | clearOp => exact ⟨hcnt, hlo, hhi⟩
  | setValueOp t net =>
      simp only [step, setValueOp]
      cases hf : ((w.cache.map Prod.snd).flatten).find? (fun r => r.ticker == t) with
      | some found => exact stateInv_selectItem ⟨hcnt, hlo, hhi⟩ found
      | none =>
          have hw1 := fetch_fields env { w with inputValue := t } t net
          cases hm : ((fetchTickers env { w with inputValue := t } t net).2.1).find?
              (fun r => r.ticker == t) with
          | some m =>
              refine stateInv_selectItem ?_ m
              refine ⟨?_, ?_, ?_⟩
              · rw [hw1.2.2.2.2.1, hw1.2.2.2.1]; exact hcnt
              · rw [hw1.2.2.1]; exact hlo
              · rw [hw1.2.2.1, hw1.2.2.2.1]; exact hhi
          | none =>
              refine ⟨?_, ?_, ?_⟩
              · rw [hw1.2.2.2.2.1, hw1.2.2.2.1]; exact hcnt
              · rw [hw1.2.2.1]; exact hlo
              · rw [hw1.2.2.1, hw1.2.2.2.1]; exact hhi

theorem stateInv_run (env : Env) {w : Widget} (h : StateInv w) (evs : List Ev) :
    StateInv (run env w evs) := by
  induction evs generalizing w with
  | nil => exact h
  | cons e rest ih => exact ih (stateInv_step env h e)

theorem stateInv_construct {env : Env} {hn hs hc : Bool} {txt : Str}
    {net : NetResult} {w0 : Widget}
    (h : constructW env hn hs hc true txt net = some w0) : StateInv w0 := by
  simp only [constructW, if_true, Option.some.injEq] at h
  subst h
  have hf := fetch_fields env (initWidget hn hs hc txt) [] net
  refine ⟨?_, ?_, ?_⟩
  · rw [hf.2.2.2.2.1, hf.2.2.2.1]; rfl
  · rw [hf.2.2.1]; simp [initWidget]
  · rw [hf.2.2.1, hf.2.2.2.1]
    exact Or.inr (by simp only [initWidget, List.length_nil]; omega)

theorem stateInv_reachable {env : Env} {w : Widget} (h : ReachableW env w) :
    StateInv w := by
  obtain ⟨hn, hs, hc, txt, net, w0, evs, hcons, hrun⟩ := h
  subst hrun
  exact stateInv_run env (stateInv_construct hcons) evs

/-- On a success or fallback-backed failure, `_fetchTickers` caches its
result under the queried key. -/
theorem fetch_caches_when_available {env : Env} {w : Widget} {q : Str}
    {net : NetResult} (hnc : cacheGet w.cache q = none)
    (hav : net ≠ .failure ∨ env.fallbackTable ≠ none) :
    cacheGet ((fetchTickers env w q net).1).cache q
      = some ((fetchTickers env w q net).2.1) := by
  unfold fetchTickers
  rw [hnc]
  cases net with
  | success tks => exact cacheGet_cacheSet_self _ _ _
  | failure =>
      cases hf : env.fallbackTable with
      | some table => exact cacheGet_cacheSet_self _ _ _
      | none =>
          rcases hav with h1 | h2
          · exact absurd rfl h1
          · exact absurd hf h2

/-- On a failure with no fallback table, `_fetchTickers` leaves the cache
untouched and resolves with the empty list. -/
theorem fetch_failure_no_fallback {w : Widget} {q : Str}
    (hnc : cacheGet w.cache q = none) :
    fetchTickers ⟨none⟩ w q .failure = ({ w with loading := false }, [], true) := by
  unfold fetchTickers
  rw [hnc]

/-- `_fetchTickers` inserts only normalized keys when called with a
normalized query. -/
theorem cacheNorm_fetch {env : Env} {w : Widget} {q : Str} {net : NetResult}
    (h : CacheNorm w) (hq : normalizeQ q = q) :
    CacheNorm (fetchTickers env w q net).1 := by
  intro k hk
  rcases fetch_cache_keys hk with rfl | hk2
  · exact hq
  · exact h k hk2

theorem cacheNorm_onInput {env : Env} {w : Widget} (net : NetResult)
    (h : CacheNorm w) : CacheNorm (onInput env w net) := by
  intro k hk
  simp only [onInput, renderResults, showLoading] at hk
  rcases fetch_cache_keys hk with rfl | hk2
  · exact normalizeQ_idem _
  · exact h k hk2

theorem cacheNorm_step (env : Env) {w : Widget} (h : CacheNorm w) (e : Ev)
    (hsv : ∀ t net, e = Ev.setValueOp t net → normalizeQ t = t) :
    CacheNorm (step env w e) := by
  cases e with
  | focus net =>
      simp only [step, focusEvent]
      cases hc : cacheGet w.cache (normalizeQ w.inputValue) with
      | some cached => exact fun k hk => h k hk
      | none => exact cacheNorm_onInput net h
  | inputEv text net => exact cacheNorm_onInput net (fun k hk => h k hk)
  | arrowDown => exact fun k hk => h k hk
  | arrowUp => exact fun k hk => h k hk
  | enter =>
      simp only [step, enterKey]
      split
      · cases hg : w.currentResults.get? w.highlightedIndex.toNat with
        | some item => exact fun k hk => h k hk
        | none => exact fun k hk => h k hk
      · exact fun k hk => h k hk
  | escape => exact fun k hk => h k hk
  | outsideClick => exact fun k hk => h k hk
  | clickItem i =>
      simp only [step, clickItem]
      split
      · cases hg : w.currentResults.get? i with
        | some item => exact fun k hk => h k hk
        | none => exact fun k hk => h k hk
      · exact fun k hk => h k hk
  | clickManual =>
      simp only [step, clickManual]
      split
      · exact fun k hk => h k hk
      · exact fun k hk => h k hk
  | clearOp => exact fun k hk => h k hk
  | setValueOp t net =>
      have ht := hsv t net rfl
      simp only [step, setValueOp]
      cases hf : ((w.cache.map Prod.snd).flatten).find? (fun r => r.ticker == t) with
      | some found => exact fun k hk => h k hk
      | none =>
          cases hm : ((fetchTickers env { w with inputValue := t } t net).2.1).find?
              (fun r => r.ticker == t) with
          | some m =>
              intro k hk
              simp only [selectItem] at hk
              rcases fetch_cache_keys hk with rfl | hk2
              · exact ht
              · exact h k hk2
          | none =>
              intro k hk
              rcases fetch_cache_keys hk with rfl | hk2
              · exact ht
              · exact h k hk2

/-- The constructor pre-warms with the (normalized) empty query only. -/
theorem cacheNorm_construct {env : Env} {hn hs hc : Bool} {txt : Str}
    {net : NetResult} {w0 : Widget}
    (h : constructW env hn hs hc true txt net = some w0) : CacheNorm w0 := by
  simp only [constructW, if_true, Option.some.injEq] at h
  subst h
  refine cacheNorm_fetch ?_ rfl
  intro k hk
  simp [initWidget] at hk

/-- `setValue` either commits an exact match (and then the input shows its
ticker) or leaves `selected` untouched while overwriting the input with the
raw argument. -/
theorem setValue_selected_input (env : Env) (w : Widget) (t : Str)
    (net : NetResult) :
    (∃ r, (setValueOp env w t net).selected = some r ∧
          (setValueOp env w t net).inputValue = r.ticker) ∨
    ((setValueOp env w t net).selected = w.selected ∧
     (setValueOp env w t net).inputValue = t) := by
  simp only [setValueOp]
  cases hf : ((w.cache.map Prod.snd).flatten).find? (fun r => r.ticker == t) with
  | some found => exact Or.inl ⟨found, rfl, rfl⟩
  | none =>
      cases hm : ((fetchTickers env { w with inputValue := t } t net).2.1).find?
          (fun r => r.ticker == t) with
      | some m => exact Or.inl ⟨m, rfl, rfl⟩
      | none =>
          have hp := fetch_fields env { w with inputValue := t } t net
          refine Or.inr ⟨?_, ?_⟩
          · rw [hp.1]
          · rw [hp.2.1]

/-- `_fetchTickers` on an uncached query always consults the
network/fallback. -/
theorem fetch_hit_of_uncached {env : Env} {w : Widget} {q : Str}
    {net : NetResult} (hnc : cacheGet w.cache q = none) :
    (fetchTickers env w q net).2.2 = true := by
  unfold fetchTickers
  rw [hnc]
  cases net with
  | success tks => rfl
  | failure => cases hf : env.fallbackTable <;> rfl

/-! ## Claims -/

/-- C9: the query normalization (trim then uppercase) is idempotent:
`normalizeQ (normalizeQ q) = normalizeQ q` for every string `q`. -/
theorem C9_normalize_idempotent (q : Str) :
    normalizeQ (normalizeQ q) = normalizeQ q :=
  normalizeQ_idem q

/-- C1 counterexample: in the reachable state `wEmptyRendered` the rendered
result list is empty, yet an ArrowUp keydown is not a no-op — it moves
`highlightedIndex` from `-1` to `0`. -/
theorem C1_counterexample :
    ReachableW envNoFb wEmptyRendered ∧
    wEmptyRendered.renderedCount = 0 ∧
    wEmptyRendered.currentResults = [] ∧
    wEmptyRendered.highlightedIndex = -1 ∧
    arrowUp wEmptyRendered ≠ wEmptyRendered ∧
    (arrowUp wEmptyRendered).highlightedIndex = 0 := by
  refine ⟨⟨false, false, false, [], netEmpty, w0empty, [Ev.focus netEmpty],
    rfl, rfl⟩, ?_, ?_, ?_, ?_, ?_⟩ <;> decide

/-- C1 amended: ArrowDown sets `highlightedIndex` to
`min (highlightedIndex + 1) (length - 1)` and ArrowUp to
`max (highlightedIndex - 1) 0`; on a non-empty rendered list with
`highlightedIndex` in `[-1, length-1]` both land in `[0, length-1]` without
wrapping; on an empty rendered list ArrowDown (from `-1`) is a no-op but
ArrowUp sets `highlightedIndex` to `0`. -/
theorem C1_arrow_clamped :
    (∀ w : Widget, w.renderedCount ≠ 0 → -1 ≤ w.highlightedIndex →
      w.highlightedIndex < (w.renderedCount : Int) →
      ((arrowDown w).highlightedIndex
          = min (w.highlightedIndex + 1) ((w.renderedCount : Int) - 1) ∧
       0 ≤ (arrowDown w).highlightedIndex ∧
       (arrowDown w).highlightedIndex < (w.renderedCount : Int) ∧
       (arrowUp w).highlightedIndex = max (w.highlightedIndex - 1) 0 ∧
       0 ≤ (arrowUp w).highlightedIndex ∧
       (arrowUp w).highlightedIndex < (w.renderedCount : Int))) ∧
    (∀ w : Widget, w.renderedCount = 0 → w.highlightedIndex = -1 →
      arrowDown w = w ∧ (arrowUp w).highlightedIndex = 0) := by
  constructor
  · intro w hne hlo hhi
    refine ⟨rfl, ?_, ?_, rfl, ?_, ?_⟩ <;> simp only [arrowDown, arrowUp] <;> omega
  · intro w h0 hm1
    constructor
    · cases w with
      | mk sel dv hi ca lo cr rc rq iv bv bt nf sf ro ho ce =>
          simp only [Widget.renderedCount] at h0
          simp only [Widget.highlightedIndex] at hm1
          subst h0
          subst hm1
          simp only [arrowDown]
          norm_num
    · simp only [arrowUp, hm1]
      omega

theorem C1_arrow_clamped_witness :
    (wMid.renderedCount ≠ 0 ∧ -1 ≤ wMid.highlightedIndex ∧
     wMid.highlightedIndex < (wMid.renderedCount : Int)) ∧
    0 ≤ (arrowDown wMid).highlightedIndex := by
  refine ⟨⟨by decide, by decide, by decide⟩, ?_⟩
  exact (C1_arrow_clamped.1 wMid (by decide) (by decide) (by decide)).2.1

/-- C2 counterexample: after rendering an empty result list and pressing
ArrowUp, the reachable state has `highlightedIndex = 0`, which is neither
`-1` nor a valid index into the (empty) rendered result list. -/
theorem C2_counterexample :
    ReachableW envNoFb (arrowUp wEmptyRendered) ∧
    ¬((arrowUp wEmptyRendered).highlightedIndex = -1 ∨
      (0 ≤ (arrowUp wEmptyRendered).highlightedIndex ∧
       (arrowUp wEmptyRendered).highlightedIndex
         < ((arrowUp wEmptyRendered).currentResults.length : Int))) := by
  constructor
  · exact ⟨false, false, false, [], netEmpty, w0empty,
      [Ev.focus netEmpty, Ev.arrowUp], rfl, rfl⟩
  · decide

/-- C2 amended: in every reachable state `highlightedIndex` is `-1`, `0`
(also reachable with an empty list, by ArrowUp), or a valid index into the
current result list; and every re-render resets it to `-1`. -/
theorem C2_highlight_invariant (env : Env) (w : Widget)
    (h : ReachableW env w) :
    (w.highlightedIndex = -1 ∨ w.highlightedIndex = 0 ∨
     (0 ≤ w.highlightedIndex ∧
      w.highlightedIndex < (w.currentResults.length : Int))) ∧
    (∀ w' res q, (renderResults w' res q).highlightedIndex = -1) := by
  obtain ⟨hcnt, hlo, hhi⟩ := stateInv_reachable h
  exact ⟨by omega, fun w' res q => rfl⟩

theorem C2_highlight_invariant_witness :
    ReachableW envNoFb wEmptyRendered ∧
    (wEmptyRendered.highlightedIndex = -1 ∨
     wEmptyRendered.highlightedIndex = 0 ∨
     (0 ≤ wEmptyRendered.highlightedIndex ∧
      wEmptyRendered.highlightedIndex
        < (wEmptyRendered.currentResults.length : Int))) := by
  have hr : ReachableW envNoFb wEmptyRendered :=
    ⟨false, false, false, [], netEmpty, w0empty, [Ev.focus netEmpty], rfl, rfl⟩
  exact ⟨hr, (C2_highlight_invariant envNoFb wEmptyRendered hr).1⟩

/-- C3 counterexample: the pre-warm fetch of the empty query fails with no
fallback table available; on this exit path nothing is cached (rather than
an empty list being cached), so a second fetch of the same query consults
the network again — both fetches report a hit. -/
theorem C3_counterexample :
    cacheGet wFailNoFb.cache [] = none ∧
    (fetchTickers envNoFb (initWidget false false false []) [] .failure).2.2
      = true ∧
    (fetchTickers envNoFb wFailNoFb [] .failure).2.2 = true := by
  refine ⟨?_, ?_, ?_⟩ <;> decide

/-- C3 amended: on the success and fallback exit paths `_fetchTickers`
caches its result under the queried key and a second fetch of the same key
is served from the cache without another hit; but on a failure with no
fallback table the cache is untouched and the promise resolves with `[]`,
so a second fetch of the same key hits the network again. -/
theorem C3_fetch_caching (env : Env) (w : Widget) (q : Str)
    (net net2 : NetResult) (hnc : cacheGet w.cache q = none) :
    ((net ≠ .failure ∨ env.fallbackTable ≠ none) →
      cacheGet ((fetchTickers env w q net).1).cache q
        = some ((fetchTickers env w q net).2.1) ∧
      fetchTickers env ((fetchTickers env w q net).1) q net2
        = ((fetchTickers env w q net).1, (fetchTickers env w q net).2.1,
           false)) ∧
    (net = .failure → env.fallbackTable = none →
      (fetchTickers env w q net).1.cache = w.cache ∧
      (fetchTickers env w q net).2.1 = [] ∧
      (fetchTickers env ((fetchTickers env w q net).1) q net2).2.2 = true) := by
  constructor
  · intro hav
    have h1 := fetch_caches_when_available hnc hav
    exact ⟨h1, fetch_cached h1⟩
  · intro hnf hfb
    subst hnf
    cases env with
    | mk fb =>
        simp only at hfb
        subst hfb
        rw [fetch_failure_no_fallback hnc]
        exact ⟨rfl, rfl, fetch_hit_of_uncached hnc⟩

theorem C3_fetch_caching_witness :
    cacheGet (initWidget false false false []).cache [] = none ∧
    cacheGet
        ((fetchTickers envNoFb (initWidget false false false []) []
          netEmpty).1).cache []
      = some ((fetchTickers envNoFb (initWidget false false false []) []
          netEmpty).2.1) := by
  refine ⟨rfl, ?_⟩
  exact ((C3_fetch_caching envNoFb (initWidget false false false []) []
    netEmpty netEmpty rfl).1 (Or.inl (by decide))).1

/-- C4 counterexample: in the reachable state `wAfterSet` (selection of
`rBB` committed, then `setValue('ZZZZ')` with no exact match), `selected`
is still `rBB` but the input displays `"ZZZZ"`, not `selected.ticker`. -/
theorem C4_counterexample :
    ReachableW envNoFb wAfterSet ∧
    wAfterSet.selected = some rBB ∧
    wAfterSet.inputValue = jstr "ZZZZ" ∧
    jstr "ZZZZ" ≠ rBB.ticker := by
  refine ⟨⟨false, false, false, [], .success (some [rBB]), w0bb,
    [Ev.setValueOp (jstr "BBRI") netEmpty, Ev.setValueOp (jstr "ZZZZ") netEmpty],
    rfl, rfl⟩, ?_, ?_, ?_⟩ <;> decide

/-- C4 amended: `clear` nulls `selected`; committing a selection makes the
input display the selected ticker; and `setValue` either commits an exact
match (after which the input shows its ticker) or — when no exact match is
found — leaves `selected` unchanged while overwriting the input with the
raw symbol, breaking the displayed-text invariant. -/
theorem C4_selected_input_sync (env : Env) (w : Widget) (t : Str)
    (net : NetResult) (item : TickerRecord) :
    (clearW w).selected = none ∧
    ((selectItem w item).selected = some item ∧
     (selectItem w item).inputValue = item.ticker) ∧
    ((∃ r, (setValueOp env w t net).selected = some r ∧
           (setValueOp env w t net).inputValue = r.ticker) ∨
     ((setValueOp env w t net).selected = w.selected ∧
      (setValueOp env w t net).inputValue = t)) :=
  ⟨rfl, ⟨rfl, rfl⟩, setValue_selected_input env w t net⟩

/-- C5 counterexample: `setValue('bbri')` inserts the raw, non-normalized
string `"bbri"` as a cache key in a reachable state. -/
theorem C5_counterexample :
    ReachableW envNoFb wRawKey ∧
    jstr "bbri" ∈ wRawKey.cache.map Prod.fst ∧
    normalizeQ (jstr "bbri") ≠ jstr "bbri" := by
  refine ⟨⟨false, false, false, [], netEmpty, w0empty,
    [Ev.setValueOp (jstr "bbri") netEmpty], rfl, rfl⟩, ?_, ?_⟩ <;> decide

/-- C5 amended: construction establishes that all cache keys are
normalized, and every event preserves this — except that `setValue`
inserts its argument verbatim, so preservation for `setValue` holds
exactly when the supplied symbol is already normalized. -/
theorem C5_cache_keys_normalized (env : Env) (hn hs hc : Bool) (txt : Str)
    (net : NetResult) (w0 w : Widget) (e : Ev)
    (hcons : constructW env hn hs hc true txt net = some w0)
    (hcn : CacheNorm w)
    (hsv : ∀ t net2, e = Ev.setValueOp t net2 → normalizeQ t = t) :
    CacheNorm w0 ∧ CacheNorm (step env w e) :=
  ⟨cacheNorm_construct hcons, cacheNorm_step env hcn e hsv⟩

theorem C5_cache_keys_normalized_witness :
    constructW envNoFb false false false true [] netEmpty = some w0empty ∧
    normalizeQ ([] : Str) = [] := by
  have hcn : CacheNorm w0empty := by
    intro k hk
    have hkeys : w0empty.cache.map Prod.fst = [([] : Str)] := by decide
    rw [hkeys] at hk
    rcases List.mem_singleton.mp hk with rfl
    rfl
  have h := C5_cache_keys_normalized envNoFb false false false [] netEmpty
    w0empty w0empty Ev.escape rfl hcn (fun t n2 hne => Ev.noConfusion hne)
  exact ⟨rfl, h.1 [] (by decide)⟩

/-- C6 counterexample: with a fallback-table entry whose ticker symbol is
stored in lower case, the code's filter (which uppercases only the query)
misses it while the claimed case-insensitive prefix match would return it:
the fetch resolves with `[]`, not with the claimed list. -/
theorem C6_counterexample :
    fallbackFilter [tLow] (jstr "bb") = [] ∧
    fallbackFilterSpec [tLow] (jstr "bb") = [tLow] ∧
    (fetchTickers ⟨some [tLow]⟩ (initWidget false false false [])
      (jstr "bb") .failure).2.1 = [] := by
  refine ⟨?_, ?_, ?_⟩ <;> decide

/-- C6 amended: on a failure with a fallback table, the returned list is
the table filtered by prefix match of the UPPERCASED query against the
ticker as stored, OR case-insensitive substring match on the name, capped
at 30 (first 50 entries for an empty query); this coincides with the fully
case-insensitive filter of the claim whenever every table ticker is stored
in upper case. -/
theorem C6_fallback_filter (env : Env) (w : Widget)
    (table : List TickerRecord) (q : Str)
    (hfb : env.fallbackTable = some table)
    (hnc : cacheGet w.cache q = none)
    (hup : ∀ t ∈ table, upL t.ticker = t.ticker) :
    (fetchTickers env w q .failure).2.1 = fallbackFilter table q ∧
    (fetchTickers env w q .failure).2.1 = fallbackFilterSpec table q := by
  have h1 : (fetchTickers env w q .failure).2.1 = fallbackFilter table q := by
    unfold fetchTickers
    rw [hnc, hfb]
  refine ⟨h1, ?_⟩
  rw [h1]
  simp only [fallbackFilter, fallbackFilterSpec]
  have hlen : (upL q).isEmpty = q.isEmpty := by cases q <;> rfl
  rw [hlen]
  by_cases hq : q.isEmpty
  · rw [if_pos hq, if_pos hq]
  · rw [if_neg hq, if_neg hq]
    congr 1
    apply List.filter_congr
    intro t ht
    rw [hup t ht]

theorem C6_fallback_filter_witness :
    (⟨some [rBB]⟩ : Env).fallbackTable = some [rBB] ∧
    cacheGet (initWidget false false false []).cache (jstr "BB") = none ∧
    (∀ t ∈ [rBB], upL t.ticker = t.ticker) ∧
    (fetchTickers ⟨some [rBB]⟩ (initWidget false false false [])
      (jstr "BB") .failure).2.1 = fallbackFilterSpec [rBB] (jstr "BB") := by
  refine ⟨rfl, rfl, by decide, ?_⟩
  exact (C6_fallback_filter ⟨some [rBB]⟩ (initWidget false false false [])
    [rBB] (jstr "BB") rfl rfl (by decide)).2

/-- C7: committing a rendered item — via `_select`, reached from an Enter
keydown on the highlighted row or a mousedown on a rendered row — sets
`selected` to the record, displays exactly its ticker in the input
(independent of typed casing), autofills the configured name and sector
fields (empty sector when absent), shows the badge with the record's name,
closes the dropdown, and appends the record to the `onChange` log when a
callback is configured. -/
theorem C7_select_commits (env : Env) (w : Widget) (item : TickerRecord)
    (nm sec : Str) (i : Nat)
    (hnm : w.nameField = some nm) (hsec : w.sectorField = some sec)
    (hcb : w.hasOnChange = true) :
    ((selectItem w item).selected = some item ∧
     (selectItem w item).inputValue = item.ticker ∧
     (selectItem w item).nameField = some item.name ∧
     (selectItem w item).sectorField = some (item.sector.getD []) ∧
     (selectItem w item).badgeVisible = true ∧
     (selectItem w item).badgeText = item.name ∧
     (selectItem w item).dropdownVisible = false ∧
     (selectItem w item).changeEvents = w.changeEvents ++ [item]) ∧
    (0 ≤ w.highlightedIndex →
     w.currentResults.get? w.highlightedIndex.toNat = some item →
     step env w Ev.enter = selectItem w item) ∧
    (w.dropdownVisible = true → i < w.renderedCount →
     w.currentResults.get? i = some item →
     step env w (Ev.clickItem i) = selectItem w item) := by
  refine ⟨⟨rfl, rfl, ?_, ?_, rfl, rfl, rfl, ?_⟩, ?_, ?_⟩
  · simp [selectItem, hnm]
  · simp [selectItem, hsec]
  · simp [selectItem, hcb]
  · intro h0 hg
    simp only [step, enterKey]
    rw [if_pos h0, hg]
  · intro hv hi hg
    simp only [step, clickItem]
    rw [if_pos (show (w.dropdownVisible = true) ∧ i < w.renderedCount
      from ⟨hv, hi⟩), hg]

theorem C7_select_commits_witness :
    wMid.nameField = some [] ∧ wMid.sectorField = some [] ∧
    wMid.hasOnChange = true ∧
    (selectItem wMid rBB).inputValue = rBB.ticker ∧
    (selectItem wMid rBB).changeEvents = wMid.changeEvents ++ [rBB] := by
  have h := C7_select_commits envNoFb wMid rBB [] [] 0 rfl rfl rfl
  exact ⟨rfl, rfl, rfl, h.1.2.1, h.1.2.2.2.2.2.2.2⟩

/-- C8: construction with a missing target input installs no widget (and
the model raises nothing — every public operation is a total function);
construction with the input present always yields a widget for every
network outcome; and a failed fetch degrades to the fallback filter result
or to the empty list, never to an error. -/
theorem C8_no_throw (env : Env) (hn hs hc : Bool) (txt : Str)
    (net : NetResult) (w : Widget) (q : Str)
    (hnc : cacheGet w.cache q = none) :
    constructW env hn hs hc false txt net = none ∧
    (constructW env hn hs hc true txt net).isSome = true ∧
    (fetchTickers env w q .failure).2.1
      = (match env.fallbackTable with
         | some table => fallbackFilter table q
         | none => []) := by
  refine ⟨rfl, rfl, ?_⟩
  unfold fetchTickers
  rw [hnc]
  cases hf : env.fallbackTable <;> rfl

theorem C8_no_throw_witness :
    cacheGet (initWidget false false false []).cache (jstr "Q") = none ∧
    constructW envNoFb false false false false (jstr "Q") netEmpty = none ∧
    (constructW envNoFb false false false true (jstr "Q") netEmpty).isSome
      = true := by
  have h := C8_no_throw envNoFb false false false (jstr "Q") netEmpty
    (initWidget false false false []) (jstr "Q") rfl
  exact ⟨rfl, h.1, h.2.1⟩

/-- C10: the Enter handler never consults `dropdownVisible`: whenever
`highlightedIndex ≥ 0` points at an existing entry of `_currentResults`,
Enter commits that record and logs `onChange` even with the dropdown
closed; and since neither `_select` nor `_hide` resets `highlightedIndex`
or `_currentResults`, a second Enter immediately commits the same record
again. -/
theorem C10_enter_ignores_visibility (env : Env) (w : Widget)
    (item : TickerRecord)
    (hvis : w.dropdownVisible = false)
    (hcb : w.hasOnChange = true)
    (h0 : 0 ≤ w.highlightedIndex)
    (hg : w.currentResults.get? w.highlightedIndex.toNat = some item) :
    step env w Ev.enter = selectItem w item ∧
    (step env w Ev.enter).selected = some item ∧
    (step env w Ev.enter).changeEvents = w.changeEvents ++ [item] ∧
    (step env (step env w Ev.enter) Ev.enter).selected = some item ∧
    (step env (step env w Ev.enter) Ev.enter).changeEvents
      = w.changeEvents ++ [item, item] := by
  have he : step env w Ev.enter = selectItem w item := by
    simp only [step, enterKey]
    rw [if_pos h0, hg]
  have he2 : step env (selectItem w item) Ev.enter
      = selectItem (selectItem w item) item := by
    simp only [step, enterKey]
    rw [if_pos (show (0 : Int) ≤ (selectItem w item).highlightedIndex from h0)]
    rw [show (selectItem w item).currentResults.get?
      (selectItem w item).highlightedIndex.toNat = some item from hg]
  refine ⟨he, ?_, ?_, ?_, ?_⟩
  · rw [he]; rfl
  · rw [he]; simp [selectItem, hcb]
  · rw [he, he2]; rfl
  · rw [he, he2]; simp [selectItem, hcb]

theorem C10_enter_ignores_visibility_witness :
    wMid.dropdownVisible = false ∧ wMid.hasOnChange = true ∧
    0 ≤ wMid.highlightedIndex ∧
    wMid.currentResults.get? wMid.highlightedIndex.toNat = some rBB ∧
    (step envNoFb (step envNoFb wMid Ev.enter) Ev.enter).changeEvents
      = wMid.changeEvents ++ [rBB, rBB] := by
  have h := C10_enter_ignores_visibility envNoFb wMid rBB rfl rfl
    (by decide) (by decide)
  exact ⟨rfl, rfl, by decide, by decide, h.2.2.2.2⟩
